import Mathlib

/-!
# mmap.cpp: mapped buffers, `sync`, `unmap` and the release callback

A shallow embedding of `src/mmap.cpp`.  The addon is stateful code over three
pieces of state that are made explicit here:

* the operating system, reached through `mmap`, `munmap` and `msync`; its
  answers are given by an `Os` record and every call is appended, with its
  result, to the `events` of the `World`;
* the C++ heap holding the `hint_wrap` records allocated by `Map`;
* the buffer objects of the host runtime created by `node::Buffer::New`.

Integer arguments are the `int64_t` results of `args[i]->ToInteger(isolate)->Value()`;
conversions to `size_t`, `int` and `off_t` are written out with explicit
moduli (LP64: `size_t` and `off_t` are 64 bits wide, `int` is 32 bits wide).
-/

namespace Mmap

/-! ## Machine integers -/

/-- The values an `int64_t` can hold. -/
def isInt64 (v : Int) : Prop := -(2 : Int) ^ 63 ≤ v ∧ v < (2 : Int) ^ 63

instance (v : Int) : Decidable (isInt64 v) := by
  unfold isInt64; exact inferInstance

/-- The values an `int` can hold. -/
def isInt32 (v : Int) : Prop := -(2 : Int) ^ 31 ≤ v ∧ v < (2 : Int) ^ 31

instance (v : Int) : Decidable (isInt32 v) := by
  unfold isInt32; exact inferInstance

/-- Conversion `int64_t → size_t` (`const size_t x = ...->Value()`): reduction modulo `2^64`. -/
def toSizeT (v : Int) : Nat := (v % (2 : Int) ^ 64).toNat

/-- Conversion `int64_t → int` (`const int x = ...->Value()`): two's complement truncation to 32 bits. -/
def toInt (v : Int) : Int := (v + (2 : Int) ^ 31) % (2 : Int) ^ 32 - (2 : Int) ^ 31

/-- Conversion `int64_t → off_t` (`const off_t x = ...->Value()`), `off_t` being 64 bits wide. -/
def toOffT (v : Int) : Int := (v + (2 : Int) ^ 63) % (2 : Int) ^ 64 - (2 : Int) ^ 63

/-- Subtraction of `size_t` values (`length -= offset`): the difference modulo `2^64`. -/
def subSizeT (a b : Nat) : Nat := (a + 2 ^ 64 - b % 2 ^ 64) % 2 ^ 64

/-- The integer `args[i]->ToInteger(isolate)->Value()`.  An index past the end of the
argument list reads `undefined`, whose integer conversion is `0`. -/
def arg (args : List Int) (i : Nat) : Int := args.getD i 0

/-! ## Data model -/

/-- The record `struct hint_wrap { size_t length; }`. -/
structure hint_wrap where
  length : Nat
deriving DecidableEq, Repr

/-- One call into the operating system together with the value it returned. -/
inductive Event where
  | mmap (addr length : Nat) (protection flags fd offset : Int) (ret : Nat)
  | munmap (addr length : Nat) (ret : Int)
  | msync (addr length : Nat) (flags : Int) (ret : Int)
deriving DecidableEq, Repr

/-- The operating system and the constants of `<sys/mman.h>`.  Every answer may
depend on the calls made so far. -/
structure Os where
  /-- The pointer returned by `mmap(addr, length, prot, flags, fd, offset)`. -/
  mmap : List Event → Nat → Nat → Int → Int → Int → Int → Nat
  /-- The value of `errno` after the calls made so far. -/
  errno : List Event → Int
  /-- Whether `munmap(addr, length)` succeeds. -/
  munmapOk : List Event → Nat → Nat → Bool
  /-- The value returned by `msync(addr, length, flags)`. -/
  msync : List Event → Nat → Nat → Int → Int
  /-- The constant `MAP_FAILED`. -/
  MAP_FAILED : Nat
  /-- The constant `MS_SYNC`. -/
  MS_SYNC : Int

/-- The call `munmap(addr, length)`: by POSIX it returns `0` on success and `-1` on failure. -/
def munmap (os : Os) (history : List Event) (addr length : Nat) : Int :=
  if os.munmapOk history addr length then 0 else -1

/-- The native functions that `Map` installs on a buffer. -/
inductive Native where
  | Unmap
  | Sync
deriving DecidableEq, Repr

/-- The values of the host runtime that the addon handles. -/
inductive JsValue where
  | undefined
  | bool (b : Bool)
  | number (n : Int)
  | fn (f : Native)
  | object (id : Nat)
  | wrapped (ptr : Nat)
deriving DecidableEq, Repr

/-- The exceptions thrown by `Map`: `v8::Exception::Error(message)` and
`node::ErrnoException(isolate, errorno, syscall, message)`. -/
inductive Exception where
  | Error (message : String)
  | ErrnoException (errorno : Int) (syscall : String) (message : String)
deriving DecidableEq, Repr

/-- The release callbacks that can be registered with `node::Buffer::New`. -/
inductive FreeCallback where
  | Map_finalise
deriving DecidableEq, Repr

/-- A buffer object of the host runtime: the external memory it wraps
(`node::Buffer::Data`, `node::Buffer::Length`), the release callback and hint given to
`node::Buffer::New`, its own properties and its private (hidden) values. -/
structure BufferObj where
  data : Nat
  length : Nat
  callback : FreeCallback
  hint : Nat
  props : List (String × JsValue)
  hidden : List (String × JsValue)
deriving DecidableEq, Repr

/-- The state the addon runs in.  A pointer to a `hint_wrap` is an index into `heap`
(`none` once deleted); an object reference is an index into `objects` (`none` once
collected). -/
structure World where
  events : List Event
  heap : List (Option hint_wrap)
  objects : List (Option BufferObj)
deriving DecidableEq, Repr

/-- Append an operating-system call to the record of calls. -/
def World.log (w : World) (e : Event) : World :=
  { w with events := w.events ++ [e] }

/-- Write a property of an object, replacing an earlier value under the same key
(`Object::Set`, `Object::CreateDataProperty`). -/
def setProp (key : String) (value : JsValue) (l : List (String × JsValue)) :
    List (String × JsValue) :=
  (key, value) :: l.filter (fun p => p.1 != key)

/-- The externally visible `length` of a buffer: its own `length` property when one has
been created, the length of the wrapped memory otherwise. -/
def BufferObj.visibleLength (b : BufferObj) : JsValue :=
  (b.props.lookup "length").getD (JsValue.number b.length)

/-! ## The functions of `mmap.cpp` -/

/-- `GetHiddenValue(isolate, object, key)`: the private value stored under `key`, or the
empty handle (`none`) when the object has none. -/
def GetHiddenValue (object : BufferObj) (key : String) : Option JsValue :=
  object.hidden.lookup key

/-- `SetHiddenValue(isolate, object, key, value)`: nothing is stored for an empty handle. -/
def SetHiddenValue (object : BufferObj) (key : String) (value : Option JsValue) : BufferObj :=
  match value with
  | none => object
  | some v => { object with hidden := setProp key v object.hidden }

/-- `Map_finalise(data, hint_void)`: unmaps when the recorded length is positive, discards
the result of `munmap`, and deletes the record.  `none` stands for a dangling `hint_void`. -/
def Map_finalise (os : Os) (w : World) (data : Nat) (hint_void : Nat) : Option World :=
  match w.heap[hint_void]? with
  | some (some h) =>
    let w1 :=
      if h.length > 0 then
        w.log (Event.munmap data h.length (munmap os w.events data h.length))
      else w
    some { w1 with heap := w1.heap.set hint_void none }
  | _ => none

/-- `Sync`, called as a member of the object `this` with `args`.  Returns the new state
and the value handed back to the caller, which stays `undefined` when the function returns
without setting one.  `none` stands for a `this` that is not a live buffer. -/
def Sync (os : Os) (w : World) (this : Nat) (args : List Int) : Option (World × JsValue) :=
  match w.objects[this]? with
  | some (some buffer) =>
    let data := buffer.data
    let length := buffer.length
    -- First optional argument: offset
    let offset := toSizeT (arg args 0)
    if args.length > 0 ∧ length ≤ offset then some (w, JsValue.undefined)
    else
      let data := if args.length > 0 then data + offset else data
      let length := if args.length > 0 then subSizeT length offset else length
      -- Second optional argument: length
      let range := toSizeT (arg args 1)
      let length := if args.length > 1 ∧ range < length then range else length
      -- Third optional argument: flags
      let flags := if args.length > 2 then toInt (arg args 2) else os.MS_SYNC
      let r := os.msync w.events data length flags
      some (w.log (Event.msync data length flags r), JsValue.bool (0 == r))
  | _ => none

/-- The success branch of `Unmap`: `d->length = 0` and
`buffer->CreateDataProperty(context, "length", Number(0))`. -/
def Unmap.reset (w : World) (this : Nat) (buffer : BufferObj) (d : Nat) : World :=
  { w with
    heap := w.heap.set d (some { length := 0 })
    objects := w.objects.set this
      (some { buffer with props := setProp "length" (JsValue.number 0) buffer.props }) }

/-- `Unmap`, called as a member of the object `this`.  The condition
`d->length > 0 && -1 == munmap(data, d->length)` calls `munmap` only when the recorded
length is positive.  `none` stands for a `this` that is not a live buffer carrying a
`"mmap_dptr"` hidden value that points to a live `hint_wrap`. -/
def Unmap (os : Os) (w : World) (this : Nat) : Option (World × JsValue) :=
  match w.objects[this]? with
  | some (some buffer) =>
    let data := buffer.data
    match GetHiddenValue buffer "mmap_dptr" with
    | some (JsValue.wrapped dptr) =>
      match w.heap[dptr]? with
      | some (some d) =>
        if d.length > 0 then
          let r := munmap os w.events data d.length
          let w1 := w.log (Event.munmap data d.length r)
          if -1 == r then some (w1, JsValue.bool false)
          else some (Unmap.reset w1 this buffer dptr, JsValue.bool true)
        else some (Unmap.reset w this buffer dptr, JsValue.bool true)
      | _ => none
    | _ => none
  | _ => none

/-- `Map`, called with `args`.  Returns the new state and either the thrown exception or
the returned buffer.  `node::Buffer::New` is taken to wrap the region and to register the
callback with its hint, as the host runtime promises. -/
def Map (os : Os) (w : World) (args : List Int) : World × Except Exception JsValue :=
  if args.length ≤ 3 then
    (w, Except.error (Exception.Error
      "mmap() takes 4 arguments: size, protection, flags, fd and offset."))
  else
    let length := toSizeT (arg args 0)
    let protection := toInt (arg args 1)
    let flags := toInt (arg args 2)
    let fd := toInt (arg args 3)
    let offset := toOffT (arg args 4)
    let data := os.mmap w.events 0 length protection flags fd offset
    let w1 := w.log (Event.mmap 0 length protection flags fd offset data)
    if data = os.MAP_FAILED then
      (w1, Except.error (Exception.ErrnoException (os.errno w1.events) "mmap" ""))
    else
      -- struct hint_wrap *d = new hint_wrap; d->length = length;
      let d := w1.heap.length
      let w2 : World := { w1 with heap := w1.heap ++ [some { length := length }] }
      -- node::Buffer::New(isolate, data, length, Map_finalise, (void*)d)
      let buffer := w2.objects.length
      let buffer_object : BufferObj :=
        { data := data, length := length, callback := FreeCallback.Map_finalise, hint := d,
          props := [], hidden := [] }
      let buffer_object :=
        { buffer_object with props := setProp "unmap" (JsValue.fn Native.Unmap) buffer_object.props }
      let buffer_object :=
        { buffer_object with props := setProp "sync" (JsValue.fn Native.Sync) buffer_object.props }
      let buffer_object := SetHiddenValue buffer_object "mmap_dptr" (some (JsValue.wrapped d))
      ({ w2 with objects := w2.objects ++ [some buffer_object] },
        Except.ok (JsValue.object buffer))

/-! ## The host runtime's collector -/

/-- Collection of the buffer `this` by the host runtime: the release callback given to
`node::Buffer::New` is invoked once with the buffer's data pointer and hint, and the
object is gone. -/
def collect (os : Os) (w : World) (this : Nat) : Option World :=
  match w.objects[this]? with
  | some (some buffer) =>
    match buffer.callback with
    | FreeCallback.Map_finalise =>
      (Map_finalise os w buffer.data buffer.hint).map
        (fun w1 => { w1 with objects := w1.objects.set this none })
  | _ => none

/-! ## Observations -/

/-- The `hint_wrap` that `Unmap` reaches from the buffer `this`, if any. -/
def handleOf (w : World) (this : Nat) : Option hint_wrap :=
  match w.objects[this]? with
  | some (some buffer) =>
    match GetHiddenValue buffer "mmap_dptr" with
    | some (JsValue.wrapped dptr) => (w.heap[dptr]?).join
    | _ => none
  | _ => none

/-- The number of `munmap` calls in a record of calls. -/
def munmapCount (es : List Event) : Nat :=
  (es.filter (fun e => match e with | Event.munmap _ _ _ => true | _ => false)).length

/-- The number of `mmap` calls in a record of calls. -/
def mmapCount (es : List Event) : Nat :=
  (es.filter (fun e => match e with | Event.mmap _ _ _ _ _ _ _ => true | _ => false)).length

/-- The number of `msync` calls in a record of calls. -/
def msyncCount (es : List Event) : Nat :=
  (es.filter (fun e => match e with | Event.msync _ _ _ _ => true | _ => false)).length

/-- The buffer `this` is live in `w`, its `"mmap_dptr"` hidden value and its release hint
both point to `dptr`, and `dptr` holds the live record `d`. -/
structure Bound (w : World) (this : Nat) (buffer : BufferObj) (dptr : Nat) (d : hint_wrap) :
    Prop where
  obj : w.objects[this]? = some (some buffer)
  hid : GetHiddenValue buffer "mmap_dptr" = some (JsValue.wrapped dptr)
  hint : buffer.hint = dptr
  cell : w.heap[dptr]? = some (some d)

/-- The address `Sync` passes to `msync` when it reaches the call. -/
def Sync.addr (buffer : BufferObj) (args : List Int) : Nat :=
  if args.length > 0 then buffer.data + toSizeT (arg args 0) else buffer.data

/-- The byte count `Sync` passes to `msync` when it reaches the call. -/
def Sync.count (buffer : BufferObj) (args : List Int) : Nat :=
  if args.length > 1 ∧ toSizeT (arg args 1) <
      (if args.length > 0 then subSizeT buffer.length (toSizeT (arg args 0))
        else buffer.length)
  then toSizeT (arg args 1)
  else (if args.length > 0 then subSizeT buffer.length (toSizeT (arg args 0))
    else buffer.length)

/-- The flags `Sync` passes to `msync` when it reaches the call. -/
def Sync.flags (os : Os) (args : List Int) : Int :=
  if args.length > 2 then toInt (arg args 2) else os.MS_SYNC

/-- A call made on a mapped buffer by the program. -/
inductive Op where
  | sync (args : List Int)
  | unmap
deriving DecidableEq, Repr

/-- The state after one call on the buffer `this`. -/
def step (os : Os) (w : World) (this : Nat) : Op → Option World
  | Op.sync args => (Sync os w this args).map Prod.fst
  | Op.unmap => (Unmap os w this).map Prod.fst

/-- The state after a sequence of calls on the buffer `this`. -/
def run (os : Os) (w : World) (this : Nat) : List Op → Option World
  | [] => some w
  | op :: ops => (step os w this op).bind (fun w1 => run os w1 this ops)

/-- The state `w` of a mapping created at `data` with length `L0`, after the calls `base`
and any further calls: the buffer `this` is bound to a record that either still holds `L0`
while no `munmap(data, L0)` has returned `0` since `base`, or holds `0` while one has. -/
def Inv (base : List Event) (data L0 dptr this : Nat) (w : World) : Prop :=
  ∃ (buffer : BufferObj) (d : hint_wrap) (suffix : List Event),
    Bound w this buffer dptr d ∧ buffer.data = data ∧ w.events = base ++ suffix ∧
    ((d.length = L0 ∧ Event.munmap data L0 0 ∉ suffix) ∨
      (d.length = 0 ∧ Event.munmap data L0 0 ∈ suffix))

/-! ## Test fixtures -/

/-- An operating system on which every call succeeds; `mmap` answers address `4096`. -/
def osOk : Os :=
  { mmap := fun _ _ _ _ _ _ _ => 4096
    errno := fun _ => 0
    munmapOk := fun _ _ _ => true
    msync := fun _ _ _ _ => 0
    MAP_FAILED := 2 ^ 64 - 1
    MS_SYNC := 4 }

/-- An operating system on which every call fails, with `errno = 9` (`EBADF`). -/
def osFail : Os :=
  { mmap := fun _ _ _ _ _ _ _ => 2 ^ 64 - 1
    errno := fun _ => 9
    munmapOk := fun _ _ _ => false
    msync := fun _ _ _ _ => -1
    MAP_FAILED := 2 ^ 64 - 1
    MS_SYNC := 4 }

/-- The initial state: no call made, nothing allocated. -/
def World.empty : World := { events := [], heap := [], objects := [] }

/-- The state after `map(4096, 3, 2, -1, 0)` has succeeded in the initial state. -/
def mappedWorld : World := (Map osOk World.empty [4096, 3, 2, -1, 0]).1

/-- The buffer object number `0` of `mappedWorld`. -/
def mappedBuffer : BufferObj :=
  { data := 4096, length := 4096, callback := FreeCallback.Map_finalise, hint := 0,
    props := [("sync", JsValue.fn Native.Sync), ("unmap", JsValue.fn Native.Unmap)],
    hidden := [("mmap_dptr", JsValue.wrapped 0)] }

/-- The state after a successful `unmap()` on the buffer of `mappedWorld`. -/
def unmappedWorld : World :=
  Unmap.reset (mappedWorld.log (Event.munmap 4096 4096 0)) 0 mappedBuffer 0

/-- The buffer object number `0` of `unmappedWorld`. -/
def unmappedBuffer : BufferObj :=
  { mappedBuffer with props := setProp "length" (JsValue.number 0) mappedBuffer.props }

/-! ## Basic facts about the embedding -/

theorem munmap_eq_zero_or (os : Os) (h : List Event) (a n : Nat) :
    munmap os h a n = 0 ∨ munmap os h a n = -1 := by
  unfold munmap; split <;> simp

theorem Bound.log {w : World} {this : Nat} {buffer : BufferObj} {dptr : Nat} {d : hint_wrap}
    (hb : Bound w this buffer dptr d) (e : Event) : Bound (w.log e) this buffer dptr d :=
  ⟨hb.obj, hb.hid, hb.hint, hb.cell⟩

theorem Bound.this_lt {w : World} {this : Nat} {buffer : BufferObj} {dptr : Nat} {d : hint_wrap}
    (hb : Bound w this buffer dptr d) : this < w.objects.length := by
  have h := hb.obj
  by_contra hlt
  rw [List.getElem?_eq_none (Nat.le_of_not_lt hlt)] at h
  exact Option.noConfusion h

theorem Bound.dptr_lt {w : World} {this : Nat} {buffer : BufferObj} {dptr : Nat} {d : hint_wrap}
    (hb : Bound w this buffer dptr d) : dptr < w.heap.length := by
  have h := hb.cell
  by_contra hlt
  rw [List.getElem?_eq_none (Nat.le_of_not_lt hlt)] at h
  exact Option.noConfusion h

theorem Bound.handleOf {w : World} {this : Nat} {buffer : BufferObj} {dptr : Nat} {d : hint_wrap}
    (hb : Bound w this buffer dptr d) : handleOf w this = some d := by
  unfold Mmap.handleOf
  simp [hb.obj, hb.hid, hb.cell]

/-- After the success branch of `Unmap` the buffer is bound to a record of length `0`. -/
theorem Bound.reset {w : World} {this : Nat} {buffer : BufferObj} {dptr : Nat} {d : hint_wrap}
    (hb : Bound w this buffer dptr d) :
    Bound (Unmap.reset w this buffer dptr) this
      { buffer with props := setProp "length" (JsValue.number 0) buffer.props } dptr
      { length := 0 } := by
  refine ⟨?_, ?_, ?_, ?_⟩
  · simp [Unmap.reset, List.getElem?_set_self hb.this_lt]
  · simpa [GetHiddenValue] using hb.hid
  · exact hb.hint
  · simp [Unmap.reset, List.getElem?_set_self hb.dptr_lt]

/-- What `Unmap` computes on a bound buffer. -/
theorem Unmap_of_bound (os : Os) {w : World} {this : Nat} {buffer : BufferObj} {dptr : Nat}
    {d : hint_wrap} (hb : Bound w this buffer dptr d) :
    Unmap os w this =
      if d.length > 0 then
        if -1 == munmap os w.events buffer.data d.length then
          some (w.log (Event.munmap buffer.data d.length
            (munmap os w.events buffer.data d.length)), JsValue.bool false)
        else
          some (Unmap.reset (w.log (Event.munmap buffer.data d.length
            (munmap os w.events buffer.data d.length))) this buffer dptr, JsValue.bool true)
      else some (Unmap.reset w this buffer dptr, JsValue.bool true) := by
  unfold Unmap
  simp [hb.obj, hb.hid, hb.cell]

/-- What `Sync` computes on a live buffer. -/
theorem Sync_of_obj (os : Os) {w : World} {this : Nat} {buffer : BufferObj}
    (ho : w.objects[this]? = some (some buffer)) (args : List Int) :
    Sync os w this args =
      if args.length > 0 ∧ buffer.length ≤ toSizeT (arg args 0) then
        some (w, JsValue.undefined)
      else
        some (w.log (Event.msync (Sync.addr buffer args) (Sync.count buffer args)
            (Sync.flags os args)
            (os.msync w.events (Sync.addr buffer args) (Sync.count buffer args)
              (Sync.flags os args))),
          JsValue.bool (0 == os.msync w.events (Sync.addr buffer args)
            (Sync.count buffer args) (Sync.flags os args))) := by
  unfold Sync
  simp only [ho]
  rfl

theorem toSizeT_of_lt {v : Int} (h0 : 0 ≤ v) (h : v < 2 ^ 64) : toSizeT v = v.toNat := by
  unfold toSizeT
  rw [Int.emod_eq_of_lt h0 h]

theorem toSizeT_of_nonneg {v : Int} (h0 : 0 ≤ v) (h : isInt64 v) : toSizeT v = v.toNat := by
  unfold isInt64 at h
  exact toSizeT_of_lt h0 (by omega)

theorem toSizeT_of_neg {v : Int} (hneg : v < 0) (h : isInt64 v) :
    toSizeT v = (v + 2 ^ 64).toNat ∧ 2 ^ 63 ≤ toSizeT v := by
  unfold toSizeT
  unfold isInt64 at h
  have he : v % (2 : Int) ^ 64 = v + 2 ^ 64 := by
    rw [← Int.add_emod_self]
    exact Int.emod_eq_of_lt (by omega) (by omega)
  rw [he]
  exact ⟨rfl, by omega⟩

theorem toInt_of_isInt32 {v : Int} (h : isInt32 v) : toInt v = v := by
  unfold toInt
  unfold isInt32 at h
  rw [Int.emod_eq_of_lt (by omega) (by omega)]
  omega

theorem subSizeT_of_le {a b : Nat} (hb : b ≤ a) (ha : a < 2 ^ 64) : subSizeT a b = a - b := by
  unfold subSizeT
  rw [Nat.mod_eq_of_lt (by omega : b < 2 ^ 64)]
  omega

/-- What a successful `Map` leaves behind. -/
theorem Map_ok_inv {os : Os} {w w1 : World} {args : List Int} {v : JsValue}
    (hmap : Map os w args = (w1, Except.ok v)) :
    ∃ buffer : BufferObj,
      v = JsValue.object w.objects.length ∧
      Bound w1 w.objects.length buffer w.heap.length { length := toSizeT (arg args 0) } ∧
      buffer.length = toSizeT (arg args 0) ∧
      buffer.props.lookup "length" = none ∧
      buffer.data = os.mmap w.events 0 (toSizeT (arg args 0)) (toInt (arg args 1))
        (toInt (arg args 2)) (toInt (arg args 3)) (toOffT (arg args 4)) ∧
      w1.events = w.events ++ [Event.mmap 0 (toSizeT (arg args 0)) (toInt (arg args 1))
        (toInt (arg args 2)) (toInt (arg args 3)) (toOffT (arg args 4))
        (os.mmap w.events 0 (toSizeT (arg args 0)) (toInt (arg args 1))
          (toInt (arg args 2)) (toInt (arg args 3)) (toOffT (arg args 4)))] := by
  unfold Map at hmap
  split at hmap
  · simp at hmap
  · simp only [World.log] at hmap
    split at hmap
    · simp at hmap
    · simp only [Prod.mk.injEq, Except.ok.injEq] at hmap
      obtain ⟨rfl, rfl⟩ := hmap
      refine ⟨SetHiddenValue
          { data := os.mmap w.events 0 (toSizeT (arg args 0)) (toInt (arg args 1))
              (toInt (arg args 2)) (toInt (arg args 3)) (toOffT (arg args 4)),
            length := toSizeT (arg args 0), callback := FreeCallback.Map_finalise,
            hint := w.heap.length,
            props := setProp "sync" (JsValue.fn Native.Sync)
              (setProp "unmap" (JsValue.fn Native.Unmap) []),
            hidden := [] } "mmap_dptr" (some (JsValue.wrapped w.heap.length)),
        rfl, ⟨?_, ?_, rfl, ?_⟩, rfl, ?_, rfl, rfl⟩
      · simp
      · simp [GetHiddenValue, SetHiddenValue, setProp]
      · simp
      · simp [SetHiddenValue, setProp, List.lookup]

/-- What `Map` computes when the argument check passes and `mmap` does not fail. -/
theorem Map_of_success (os : Os) (w : World) (args : List Int) (hlen : 4 ≤ args.length)
    (hok : os.mmap w.events 0 (toSizeT (arg args 0)) (toInt (arg args 1))
      (toInt (arg args 2)) (toInt (arg args 3)) (toOffT (arg args 4)) ≠ os.MAP_FAILED) :
    ∃ w1, Map os w args = (w1, Except.ok (JsValue.object w.objects.length)) := by
  unfold Map
  rw [if_neg (by omega)]
  simp only [World.log]
  rw [if_neg hok]
  exact ⟨_, rfl⟩

/-- What the collector does to a bound buffer. -/
theorem collect_of_bound (os : Os) {w : World} {this : Nat} {buffer : BufferObj} {dptr : Nat}
    {d : hint_wrap} (hb : Bound w this buffer dptr d) :
    ∃ w3, collect os w this = some w3 ∧
      w3.events = if d.length > 0 then
          w.events ++ [Event.munmap buffer.data d.length
            (munmap os w.events buffer.data d.length)]
        else w.events := by
  unfold collect Map_finalise
  simp only [hb.obj, hb.hint, hb.cell]
  split <;> simp [World.log]

/-! ## C5, C4, C6: `Map` -/

/-- C5: with fewer than 4 arguments `Map` throws the argument error and leaves the whole
state as it was: no operating-system call is recorded, no `hint_wrap` is allocated and no
buffer is created.  With 4 or more arguments `Map` never throws that error. -/
theorem Map_argument_check (os : Os) (w : World) (args : List Int) :
    (args.length < 4 →
      Map os w args = (w, Except.error (Exception.Error
        "mmap() takes 4 arguments: size, protection, flags, fd and offset.")) ∧
      mmapCount (Map os w args).1.events = mmapCount w.events) ∧
    (4 ≤ args.length → ∀ m : String, (Map os w args).2 ≠ Except.error (Exception.Error m)) := by
  constructor
  · intro h
    have h3 : args.length ≤ 3 := by omega
    simp [Map, h3]
  · intro h m
    have h3 : ¬ args.length ≤ 3 := by omega
    unfold Map
    rw [if_neg h3]
    simp only [World.log]
    split <;> simp

theorem Map_argument_check_witness :
    (Map osOk World.empty [4096, 3, 2] = (World.empty, Except.error (Exception.Error
        "mmap() takes 4 arguments: size, protection, flags, fd and offset.")) ∧
      mmapCount (Map osOk World.empty [4096, 3, 2]).1.events = mmapCount World.empty.events) ∧
    (∀ m : String, (Map osFail World.empty [4096, 3, 2, -1]).2 ≠
      Except.error (Exception.Error m)) :=
  ⟨(Map_argument_check osOk World.empty [4096, 3, 2]).1 (by decide),
   (Map_argument_check osFail World.empty [4096, 3, 2, -1]).2 (by decide)⟩

/-- C4: with at least 4 arguments, when `mmap` returns `MAP_FAILED`, `Map` throws
`ErrnoException` carrying `errno` and the call name `"mmap"`; the only change to the state
is the record of the failed `mmap` call: no `hint_wrap` is allocated and no buffer (hence
no release callback) is created. -/
theorem Map_mmap_failed (os : Os) (w : World) (args : List Int) (hlen : 4 ≤ args.length)
    (hfail : os.mmap w.events 0 (toSizeT (arg args 0)) (toInt (arg args 1))
      (toInt (arg args 2)) (toInt (arg args 3)) (toOffT (arg args 4)) = os.MAP_FAILED) :
    (Map os w args).2 = Except.error (Exception.ErrnoException
        (os.errno (w.events ++ [Event.mmap 0 (toSizeT (arg args 0)) (toInt (arg args 1))
          (toInt (arg args 2)) (toInt (arg args 3)) (toOffT (arg args 4)) os.MAP_FAILED]))
        "mmap" "") ∧
    (Map os w args).1.events = w.events ++ [Event.mmap 0 (toSizeT (arg args 0))
      (toInt (arg args 1)) (toInt (arg args 2)) (toInt (arg args 3)) (toOffT (arg args 4))
      os.MAP_FAILED] ∧
    (Map os w args).1.heap = w.heap ∧
    (Map os w args).1.objects = w.objects := by
  have h3 : ¬ args.length ≤ 3 := by omega
  unfold Map
  rw [if_neg h3]
  simp only [World.log]
  rw [if_pos hfail]
  simp [hfail]

theorem Map_mmap_failed_witness :
    (Map osFail World.empty [4096, 3, 1, -1]).2 =
      Except.error (Exception.ErrnoException 9 "mmap" "") ∧
    (Map osFail World.empty [4096, 3, 1, -1]).1.events =
      [Event.mmap 0 4096 3 1 (-1) 0 (2 ^ 64 - 1)] ∧
    (Map osFail World.empty [4096, 3, 1, -1]).1.heap = [] ∧
    (Map osFail World.empty [4096, 3, 1, -1]).1.objects = [] :=
  Map_mmap_failed osFail World.empty [4096, 3, 1, -1] (by decide) (by decide)

/-- C6: when the argument check passes, the length argument is a non-negative `int64_t`
and `mmap` does not fail, `Map` returns a buffer whose wrapped and visible length equal the
length argument, and the `hint_wrap` reached both from the buffer's `"mmap_dptr"` hidden
value (used by `Unmap`) and from its release hint (used by `Map_finalise`) records the same
length. -/
theorem Map_buffer_length (os : Os) (w : World) (args : List Int) (hlen : 4 ≤ args.length)
    (hnonneg : 0 ≤ arg args 0) (hint64 : isInt64 (arg args 0))
    (hok : os.mmap w.events 0 (toSizeT (arg args 0)) (toInt (arg args 1))
      (toInt (arg args 2)) (toInt (arg args 3)) (toOffT (arg args 4)) ≠ os.MAP_FAILED) :
    ∃ (w1 : World) (b : Nat) (buffer : BufferObj) (d : hint_wrap),
      Map os w args = (w1, Except.ok (JsValue.object b)) ∧
      w1.objects[b]? = some (some buffer) ∧
      (buffer.length : Int) = arg args 0 ∧
      buffer.visibleLength = JsValue.number (arg args 0) ∧
      buffer.callback = FreeCallback.Map_finalise ∧
      Bound w1 b buffer buffer.hint d ∧
      handleOf w1 b = some d ∧
      (d.length : Int) = arg args 0 := by
  obtain ⟨w1, hmap⟩ := Map_of_success os w args hlen hok
  obtain ⟨buffer, -, hb, hl, hp, -, -⟩ := Map_ok_inv hmap
  have hconv : ((toSizeT (arg args 0) : Nat) : Int) = arg args 0 := by
    unfold toSizeT
    unfold isInt64 at hint64
    rw [Int.toNat_of_nonneg (Int.emod_nonneg _ (by norm_num))]
    exact Int.emod_eq_of_lt hnonneg (by omega)
  refine ⟨w1, _, buffer, _, hmap, hb.obj, ?_, ?_, ?_, ?_, hb.handleOf, hconv⟩
  · rw [hl]; exact hconv
  · unfold BufferObj.visibleLength
    rw [hp, hl]
    simp [hconv]
  · cases buffer.callback; rfl
  · rw [hb.hint]; exact hb

theorem Map_buffer_length_witness :
    ∃ (w1 : World) (b : Nat) (buffer : BufferObj) (d : hint_wrap),
      Map osOk World.empty [4096, 3, 2, -1, 0] = (w1, Except.ok (JsValue.object b)) ∧
      w1.objects[b]? = some (some buffer) ∧
      (buffer.length : Int) = 4096 ∧
      buffer.visibleLength = JsValue.number 4096 ∧
      buffer.callback = FreeCallback.Map_finalise ∧
      Bound w1 b buffer buffer.hint d ∧
      handleOf w1 b = some d ∧
      (d.length : Int) = 4096 :=
  Map_buffer_length osOk World.empty [4096, 3, 2, -1, 0] (by decide) (by decide) (by decide)
    (by decide)

/-! ## C2, C3: `Unmap` -/

/-- C2: on a bound buffer whose `munmap` succeeds, two calls of `Unmap` in a row both return
`true` and the second records no operating-system call.  In general, `Unmap` on a record
whose length is already `0` returns `true`, records no operating-system call and leaves the
length at `0`. -/
theorem Unmap_idempotent (os : Os) (w : World) (this : Nat) (buffer : BufferObj) (dptr : Nat)
    (d : hint_wrap) (hb : Bound w this buffer dptr d) :
    (os.munmapOk w.events buffer.data d.length = true →
      ∃ w1 w2, Unmap os w this = some (w1, JsValue.bool true) ∧
        Unmap os w1 this = some (w2, JsValue.bool true) ∧
        w2.events = w1.events ∧ handleOf w2 this = some { length := 0 }) ∧
    (d.length = 0 →
      ∃ w1, Unmap os w this = some (w1, JsValue.bool true) ∧
        w1.events = w.events ∧ handleOf w1 this = some { length := 0 }) := by
  have hzero : ∀ (w0 : World) (b0 : BufferObj) (d0 : hint_wrap), Bound w0 this b0 dptr d0 →
      d0.length = 0 →
      ∃ w1, Unmap os w0 this = some (w1, JsValue.bool true) ∧
        w1.events = w0.events ∧ handleOf w1 this = some { length := 0 } := by
    intro w0 b0 d0 h0 hz
    refine ⟨Unmap.reset w0 this b0 dptr, ?_, rfl, h0.reset.handleOf⟩
    rw [Unmap_of_bound os h0, if_neg (by omega)]
  constructor
  · intro hok
    have hr : munmap os w.events buffer.data d.length = 0 := by simp [munmap, hok]
    by_cases hpos : d.length > 0
    · have h1 : Unmap os w this = some (Unmap.reset (w.log (Event.munmap buffer.data d.length
          (munmap os w.events buffer.data d.length))) this buffer dptr, JsValue.bool true) := by
        rw [Unmap_of_bound os hb, if_pos hpos, hr]
        simp
      obtain ⟨w2, h2, he, hh⟩ := hzero _ _ _ (hb.log _).reset rfl
      exact ⟨_, w2, h1, h2, he, hh⟩
    · obtain ⟨w1, h1, -, -⟩ := hzero w buffer d hb (by omega)
      have hw1 : w1 = Unmap.reset w this buffer dptr := by
        rw [Unmap_of_bound os hb, if_neg hpos] at h1
        simp only [Option.some.injEq, Prod.mk.injEq, and_true] at h1
        exact h1.symm
      subst hw1
      obtain ⟨w2, h2, he, hh⟩ := hzero _ _ _ hb.reset rfl
      exact ⟨_, w2, h1, h2, he, hh⟩
  · exact hzero w buffer d hb

theorem Unmap_idempotent_witness :
    (∃ w1 w2, Unmap osOk mappedWorld 0 = some (w1, JsValue.bool true) ∧
        Unmap osOk w1 0 = some (w2, JsValue.bool true) ∧
        w2.events = w1.events ∧ handleOf w2 0 = some { length := 0 }) ∧
    (∃ w1, Unmap osFail unmappedWorld 0 = some (w1, JsValue.bool true) ∧
        w1.events = unmappedWorld.events ∧ handleOf w1 0 = some { length := 0 }) :=
  ⟨(Unmap_idempotent osOk mappedWorld 0 mappedBuffer 0 { length := 4096 }
      ⟨rfl, rfl, rfl, rfl⟩).1 rfl,
   (Unmap_idempotent osFail unmappedWorld 0 unmappedBuffer 0 { length := 0 }
      ⟨rfl, rfl, rfl, rfl⟩).2 rfl⟩

/-- C3: on a bound buffer whose record has a non-zero length, when the `munmap` call made by
`Unmap` returns a non-zero value, `Unmap` returns `false`, the record and the buffer object
(so also its visible length) are left as they were, and a following `Unmap` calls
`munmap` again with the same address and length. -/
theorem Unmap_failure_preserves (os : Os) (w : World) (this : Nat) (buffer : BufferObj)
    (dptr : Nat) (d : hint_wrap) (hb : Bound w this buffer dptr d) (hpos : 0 < d.length)
    (hfail : munmap os w.events buffer.data d.length ≠ 0) :
    ∃ w1, Unmap os w this = some (w1, JsValue.bool false) ∧
      w1.events = w.events ++ [Event.munmap buffer.data d.length
        (munmap os w.events buffer.data d.length)] ∧
      handleOf w1 this = some d ∧
      w1.heap = w.heap ∧
      w1.objects = w.objects ∧
      ∃ w2 r, Unmap os w1 this = some (w2, JsValue.bool r) ∧
        w2.events = w1.events ++ [Event.munmap buffer.data d.length
          (munmap os w1.events buffer.data d.length)] := by
  have hr : munmap os w.events buffer.data d.length = -1 := by
    rcases munmap_eq_zero_or os w.events buffer.data d.length with h | h
    · exact absurd h hfail
    · exact h
  refine ⟨w.log (Event.munmap buffer.data d.length (munmap os w.events buffer.data d.length)),
    ?_, rfl, (hb.log _).handleOf, rfl, rfl, ?_⟩
  · rw [Unmap_of_bound os hb, if_pos hpos, hr]
    simp
  · have hb1 := hb.log (Event.munmap buffer.data d.length
      (munmap os w.events buffer.data d.length))
    rw [Unmap_of_bound os hb1, if_pos hpos]
    split
    · exact ⟨_, false, rfl, rfl⟩
    · exact ⟨_, true, rfl, rfl⟩

theorem Unmap_failure_preserves_witness :
    ∃ w1, Unmap osFail mappedWorld 0 = some (w1, JsValue.bool false) ∧
      w1.events = mappedWorld.events ++ [Event.munmap 4096 4096 (-1)] ∧
      handleOf w1 0 = some { length := 4096 } ∧
      w1.heap = mappedWorld.heap ∧
      w1.objects = mappedWorld.objects ∧
      ∃ w2 r, Unmap osFail w1 0 = some (w2, JsValue.bool r) ∧
        w2.events = w1.events ++ [Event.munmap 4096 4096 (-1)] :=
  Unmap_failure_preserves osFail mappedWorld 0 mappedBuffer 0 { length := 4096 }
    ⟨rfl, rfl, rfl, rfl⟩ (by decide) (by decide)

/-! ## C1: explicit unmap and the release callback -/

/-- C1: for a mapping of non-zero length created by a successful `Map`: when `Unmap` is
called and returns `true` and the buffer is collected afterwards, the release callback
records no operating-system call, and exactly one `munmap` call has been made since the
mapping was created; when the buffer is collected without a call of `Unmap`, exactly one
`munmap` call is made as well. -/
theorem release_exactly_once (os : Os) (w w1 : World) (args : List Int) (b : Nat)
    (hmap : Map os w args = (w1, Except.ok (JsValue.object b)))
    (hpos : 0 < toSizeT (arg args 0)) :
    (∀ w2, Unmap os w1 b = some (w2, JsValue.bool true) →
      ∃ w3, collect os w2 b = some w3 ∧ w3.events = w2.events ∧
        munmapCount (w3.events.drop w1.events.length) = 1) ∧
    (∃ w3, collect os w1 b = some w3 ∧
      munmapCount (w3.events.drop w1.events.length) = 1) := by
  obtain ⟨buffer, hv, hb, -, -, -, -⟩ := Map_ok_inv hmap
  have hbeq : b = w.objects.length := by
    simpa using hv
  subst hbeq
  constructor
  · intro w2 h2
    rw [Unmap_of_bound os hb, if_pos hpos] at h2
    split at h2
    · simp at h2
    · simp only [Option.some.injEq, Prod.mk.injEq, and_true] at h2
      subst h2
      obtain ⟨w3, h3, he⟩ := collect_of_bound os (hb.log _).reset
      refine ⟨w3, h3, ?_, ?_⟩
      · simpa using he
      · rw [he]
        simp [Unmap.reset, World.log, munmapCount]
  · obtain ⟨w3, h3, he⟩ := collect_of_bound os hb
    refine ⟨w3, h3, ?_⟩
    rw [he, if_pos hpos]
    simp [munmapCount]

theorem release_exactly_once_witness :
    (Unmap osOk mappedWorld 0 = some (unmappedWorld, JsValue.bool true) ∧
      ∃ w3, collect osOk unmappedWorld 0 = some w3 ∧ w3.events = unmappedWorld.events ∧
        munmapCount (w3.events.drop mappedWorld.events.length) = 1) ∧
    (∃ w3, collect osOk mappedWorld 0 = some w3 ∧
      munmapCount (w3.events.drop mappedWorld.events.length) = 1) :=
  ⟨⟨rfl, (release_exactly_once osOk World.empty mappedWorld [4096, 3, 2, -1, 0] 0 rfl
      (by decide)).1 unmappedWorld rfl⟩,
   (release_exactly_once osOk World.empty mappedWorld [4096, 3, 2, -1, 0] 0 rfl
      (by decide)).2⟩

/-! ## C7, C8, C10: `Sync` -/

theorem arg_of_length_le {args : List Int} {i : Nat} (h : args.length ≤ i) : arg args i = 0 := by
  unfold arg
  simp [List.getD, List.getElem?_eq_none h]

/-- C7, as stated, fails: on the 4096-byte buffer of a successful `map`, `sync(4096)` has an
offset that is not below the buffer's length, and `Sync` takes the guard
`if(length <= offset) return;` before any return value is set.  No `msync` call is
recorded, but the caller receives `undefined`, not the boolean `true`. -/
theorem Sync_past_end_counterexample :
    mappedWorld.objects[0]? = some (some mappedBuffer) ∧
    mappedBuffer.length ≤ toSizeT (arg [4096] 0) ∧
    Sync osOk mappedWorld 0 [4096] = some (mappedWorld, JsValue.undefined) ∧
    Sync osOk mappedWorld 0 [4096] ≠ some (mappedWorld, JsValue.bool true) := by
  decide

/-- C7, amended: on a live buffer of non-zero length, for every offset, passed explicitly or
defaulted to `0`, whose `size_t` value is not below the buffer's length, `Sync` is a no-op:
it records no `msync` call, leaves the whole state as it was, and returns without setting a
return value, so that the caller receives `undefined` (neither `true` nor `false`),
whatever the operating system would have answered. -/
theorem Sync_past_end_undefined (os : Os) (w : World) (this : Nat) (buffer : BufferObj)
    (args : List Int) (ho : w.objects[this]? = some (some buffer))
    (hpos : 0 < buffer.length)
    (hoff : buffer.length ≤ (if 0 < args.length then toSizeT (arg args 0) else 0)) :
    Sync os w this args = some (w, JsValue.undefined) ∧
    (Sync os w this args).map (fun p => msyncCount p.1.events) = some (msyncCount w.events) := by
  have hargs : 0 < args.length := by
    by_contra hno
    rw [if_neg hno] at hoff
    omega
  rw [if_pos hargs] at hoff
  rw [Sync_of_obj os ho, if_pos ⟨hargs, hoff⟩]
  exact ⟨rfl, rfl⟩

theorem Sync_past_end_undefined_witness :
    Sync osFail mappedWorld 0 [-1, 8, 1] = some (mappedWorld, JsValue.undefined) ∧
    (Sync osFail mappedWorld 0 [-1, 8, 1]).map (fun p => msyncCount p.1.events) =
      some (msyncCount mappedWorld.events) :=
  Sync_past_end_undefined osFail mappedWorld 0 mappedBuffer [-1, 8, 1] rfl (by decide)
    (by decide)

/-- C8: on a live buffer of length `L`, with an offset `o` such that `0 ≤ o < L` (or
omitted, read as `0`), a range `r ≥ 0` (or omitted) and flags that fit an `int` (or
omitted), `Sync` records exactly one `msync` call, at address `data + o`, with byte count
`min r (L - o)` (`L - o` when the range is omitted) and with the given flags (`MS_SYNC` when
omitted); it returns `true` exactly when `msync` returned `0`. -/
theorem Sync_calls_msync_once (os : Os) (w : World) (this : Nat) (buffer : BufferObj)
    (args : List Int) (ho : w.objects[this]? = some (some buffer))
    (hL : buffer.length < 2 ^ 64)
    (hoff : 0 < args.length → 0 ≤ arg args 0 ∧ arg args 0 < buffer.length)
    (hrange : 1 < args.length → 0 ≤ arg args 1 ∧ isInt64 (arg args 1))
    (hflags : 2 < args.length → isInt32 (arg args 2)) :
    ∃ (ret : Int) (ok : Bool),
      Sync os w this args =
        some (w.log (Event.msync (buffer.data + (arg args 0).toNat)
            (if 1 < args.length then min (arg args 1).toNat (buffer.length - (arg args 0).toNat)
              else buffer.length - (arg args 0).toNat)
            (if 2 < args.length then arg args 2 else os.MS_SYNC) ret),
          JsValue.bool ok) ∧
      ret = os.msync w.events (buffer.data + (arg args 0).toNat)
        (if 1 < args.length then min (arg args 1).toNat (buffer.length - (arg args 0).toNat)
          else buffer.length - (arg args 0).toNat)
        (if 2 < args.length then arg args 2 else os.MS_SYNC) ∧
      (ok = true ↔ ret = 0) := by
  have haddr : Sync.addr buffer args = buffer.data + (arg args 0).toNat := by
    unfold Sync.addr
    by_cases h0 : 0 < args.length
    · obtain ⟨ha, hb⟩ := hoff h0
      rw [if_pos h0, toSizeT_of_lt ha (by omega)]
    · rw [if_neg h0, arg_of_length_le (by omega)]
      rfl
  have hrem : (if args.length > 0 then subSizeT buffer.length (toSizeT (arg args 0))
      else buffer.length) = buffer.length - (arg args 0).toNat := by
    by_cases h0 : 0 < args.length
    · obtain ⟨ha, hb⟩ := hoff h0
      rw [if_pos h0, toSizeT_of_lt ha (by omega), subSizeT_of_le (by omega) hL]
    · rw [if_neg h0, arg_of_length_le (by omega)]
      rfl
  have hcount : Sync.count buffer args =
      (if 1 < args.length then min (arg args 1).toNat (buffer.length - (arg args 0).toNat)
        else buffer.length - (arg args 0).toNat) := by
    unfold Sync.count
    rw [hrem]
    by_cases h1 : 1 < args.length
    · obtain ⟨ha, hb⟩ := hrange h1
      rw [if_pos h1, toSizeT_of_nonneg ha hb]
      by_cases hlt : (arg args 1).toNat < buffer.length - (arg args 0).toNat
      · rw [if_pos ⟨h1, hlt⟩, Nat.min_eq_left (by omega)]
      · rw [if_neg (fun h => hlt h.2), Nat.min_eq_right (by omega)]
    · rw [if_neg h1, if_neg (fun h => h1 h.1)]
  have hfl : Sync.flags os args = (if 2 < args.length then arg args 2 else os.MS_SYNC) := by
    unfold Sync.flags
    by_cases h2 : 2 < args.length
    · rw [if_pos h2, if_pos h2, toInt_of_isInt32 (hflags h2)]
    · rw [if_neg h2, if_neg h2]
  have hnot : ¬ (args.length > 0 ∧ buffer.length ≤ toSizeT (arg args 0)) := by
    rintro ⟨h0, hle⟩
    obtain ⟨ha, hb⟩ := hoff h0
    rw [toSizeT_of_lt ha (by omega)] at hle
    omega
  rw [Sync_of_obj os ho, if_neg hnot, haddr, hcount, hfl]
  refine ⟨_, _, rfl, rfl, ?_⟩
  rw [beq_iff_eq]
  exact eq_comm

theorem Sync_calls_msync_once_witness :
    ∃ (ret : Int) (ok : Bool),
      Sync osFail mappedWorld 0 [10, 5000, 1] =
        some (mappedWorld.log (Event.msync (4096 + 10) (min 5000 (4096 - 10)) 1 ret),
          JsValue.bool ok) ∧
      ret = osFail.msync mappedWorld.events (4096 + 10) (min 5000 (4096 - 10)) 1 ∧
      (ok = true ↔ ret = 0) :=
  Sync_calls_msync_once osFail mappedWorld 0 mappedBuffer [10, 5000, 1] rfl (by decide)
    (fun _ => by decide) (fun _ => by decide) (fun _ => by decide)

/-- C10: on a live buffer of length `L` and for arbitrary integer arguments, converted to
`size_t` modulo `2^64`: `Sync` either returns without a call, or records one `msync` call
on `(data + o, n)` where `o` is the converted offset (`0` when omitted), `o ≤ L`,
`o + n ≤ L`, and the `size_t` subtraction `L - o` does not wrap.  For `L ≤ 2^63`, a negative
`int64_t` offset leads to no call, and a negative `int64_t` range makes the call cover
exactly the remaining `L - o` bytes. -/
theorem Sync_range_within_buffer (os : Os) (w : World) (this : Nat) (buffer : BufferObj)
    (args : List Int) (ho : w.objects[this]? = some (some buffer))
    (hL : buffer.length < 2 ^ 64) :
    (Sync os w this args = some (w, JsValue.undefined) ∨
      ∃ (o n : Nat) (f ret : Int) (v : JsValue),
        Sync os w this args = some (w.log (Event.msync (buffer.data + o) n f ret), v) ∧
        o = (if 0 < args.length then toSizeT (arg args 0) else 0) ∧
        o ≤ buffer.length ∧ o + n ≤ buffer.length ∧
        subSizeT buffer.length o = buffer.length - o ∧
        (1 < args.length → isInt64 (arg args 1) → arg args 1 < 0 →
          buffer.length ≤ 2 ^ 63 → n = buffer.length - o)) ∧
    (0 < args.length → isInt64 (arg args 0) → arg args 0 < 0 → buffer.length ≤ 2 ^ 63 →
      Sync os w this args = some (w, JsValue.undefined)) := by
  constructor
  · rw [Sync_of_obj os ho]
    by_cases hret : args.length > 0 ∧ buffer.length ≤ toSizeT (arg args 0)
    · left
      rw [if_pos hret]
    · right
      rw [if_neg hret]
      have hole : (if 0 < args.length then toSizeT (arg args 0) else 0) ≤ buffer.length := by
        by_cases h0 : 0 < args.length
        · rw [if_pos h0]
          have : ¬ buffer.length ≤ toSizeT (arg args 0) := fun h => hret ⟨h0, h⟩
          omega
        · rw [if_neg h0]
          exact Nat.zero_le _
      have haddr : Sync.addr buffer args =
          buffer.data + (if 0 < args.length then toSizeT (arg args 0) else 0) := by
        unfold Sync.addr
        by_cases h0 : 0 < args.length
        · rw [if_pos h0, if_pos h0]
        · rw [if_neg h0, if_neg h0]
          rfl
      have hrem : (if args.length > 0 then subSizeT buffer.length (toSizeT (arg args 0))
          else buffer.length) =
          buffer.length - (if 0 < args.length then toSizeT (arg args 0) else 0) := by
        by_cases h0 : 0 < args.length
        · rw [if_pos h0] at hole
          rw [if_pos h0, if_pos h0, subSizeT_of_le hole hL]
        · rw [if_neg h0, if_neg h0]
          rfl
      have hcount : Sync.count buffer args =
          (if 1 < args.length ∧ toSizeT (arg args 1) <
              buffer.length - (if 0 < args.length then toSizeT (arg args 0) else 0)
            then toSizeT (arg args 1)
            else buffer.length - (if 0 < args.length then toSizeT (arg args 0) else 0)) := by
        unfold Sync.count
        rw [hrem]
      have hsum : ∀ (o r : Nat), o ≤ buffer.length →
          o + (if 1 < args.length ∧ r < buffer.length - o then r else buffer.length - o) ≤
            buffer.length := by
        intro o r hle
        by_cases hc : 1 < args.length ∧ r < buffer.length - o
        · rw [if_pos hc]; omega
        · rw [if_neg hc]; omega
      rw [haddr, hcount]
      refine ⟨_, _, _, _, _, rfl, rfl, hole, hsum _ _ hole, subSizeT_of_le hole hL, ?_⟩
      · intro h1 h64 hneg h63
        have hbig := (toSizeT_of_neg hneg h64).2
        rw [if_neg (fun h => by omega)]
  · intro h0 h64 hneg h63
    have hbig := (toSizeT_of_neg hneg h64).2
    rw [Sync_of_obj os ho, if_pos ⟨h0, by omega⟩]

theorem Sync_range_within_buffer_witness :
    (∃ (o n : Nat) (f ret : Int) (v : JsValue),
        Sync osOk mappedWorld 0 [10, -1] =
          some (mappedWorld.log (Event.msync (4096 + o) n f ret), v) ∧
        o = 10 ∧ o ≤ 4096 ∧ o + n ≤ 4096 ∧ subSizeT 4096 o = 4096 - o ∧ n = 4096 - o) ∧
    Sync osOk mappedWorld 0 [-1, 16] = some (mappedWorld, JsValue.undefined) := by
  have h1 := Sync_range_within_buffer osOk mappedWorld 0 mappedBuffer [10, -1] rfl (by decide)
  have h2 := Sync_range_within_buffer osOk mappedWorld 0 mappedBuffer [-1, 16] rfl (by decide)
  refine ⟨?_, h2.2 (by decide) (by decide) (by decide) (by decide)⟩
  rcases h1.1 with h | ⟨o, n, f, ret, v, hs, hoeq, hle, hsum, hsub, hn⟩
  · exact absurd h (by decide)
  · exact ⟨o, n, f, ret, v, hs, hoeq, hle, hsum, hsub,
      hn (by decide) (by decide) (by decide) (by decide)⟩

/-! ## C9: the length of the record along sequences of calls -/

/-- Recording an `msync` call keeps the invariant. -/
theorem Inv.log_msync {base : List Event} {data L0 dptr this : Nat} {w : World}
    (h : Inv base data L0 dptr this w) (a n : Nat) (f r : Int) :
    Inv base data L0 dptr this (w.log (Event.msync a n f r)) := by
  obtain ⟨buffer, d, suffix, hb, hdata, hev, hcase⟩ := h
  refine ⟨buffer, d, suffix ++ [Event.msync a n f r], hb.log _, hdata, ?_, ?_⟩
  · simp [World.log, hev]
  · simpa using hcase

/-- One call of `Sync` or `Unmap` returns, keeps the invariant and never changes a record
of length `0`. -/
theorem Inv.step (os : Os) {base : List Event} {data L0 dptr this : Nat} {w : World}
    (hL0 : 0 < L0) (h : Inv base data L0 dptr this w) (op : Op) :
    ∃ w1, step os w this op = some w1 ∧ Inv base data L0 dptr this w1 ∧
      (handleOf w this = some { length := 0 } → handleOf w1 this = some { length := 0 }) := by
  obtain ⟨buffer, d, suffix, hb, hdata, hev, hcase⟩ := h
  cases op with
  | sync args =>
    simp only [Mmap.step]
    rw [Sync_of_obj os hb.obj]
    by_cases hret : args.length > 0 ∧ buffer.length ≤ toSizeT (arg args 0)
    · rw [if_pos hret]
      exact ⟨w, rfl, ⟨buffer, d, suffix, hb, hdata, hev, hcase⟩, fun hz => hz⟩
    · rw [if_neg hret]
      refine ⟨_, rfl,
        Inv.log_msync ⟨buffer, d, suffix, hb, hdata, hev, hcase⟩ _ _ _ _, ?_⟩
      intro hz
      rw [hb.handleOf] at hz
      exact hz ▸ (hb.log _).handleOf
  | unmap =>
    simp only [Mmap.step]
    rw [Unmap_of_bound os hb]
    rcases hcase with ⟨hlen, hnot⟩ | ⟨hlen, hmem⟩
    · have hpos : d.length > 0 := by omega
      rw [if_pos hpos]
      rcases munmap_eq_zero_or os w.events buffer.data d.length with hr | hr
      · rw [hr]
        refine ⟨_, rfl, ⟨_, _, suffix ++ [Event.munmap buffer.data d.length 0],
          (hb.log _).reset, hdata, ?_, Or.inr ⟨rfl, ?_⟩⟩, ?_⟩
        · simp [Unmap.reset, World.log, hev]
        · simp [hdata, hlen]
        · intro _
          exact (hb.log _).reset.handleOf
      · rw [hr]
        refine ⟨_, rfl, ⟨buffer, d, suffix ++ [Event.munmap buffer.data d.length (-1)],
          hb.log _, hdata, ?_, Or.inl ⟨hlen, ?_⟩⟩, ?_⟩
        · simp [World.log, hev]
        · simpa using hnot
        · intro hz
          rw [hb.handleOf] at hz
          have : d.length = 0 := by
            cases hz
            rfl
          omega
    · rw [if_neg (by omega)]
      refine ⟨_, rfl, ⟨_, _, suffix, hb.reset, hdata, ?_, Or.inr ⟨rfl, hmem⟩⟩, ?_⟩
      · simp [Unmap.reset, hev]
      · intro _
        exact hb.reset.handleOf

/-- Every sequence of `Sync` and `Unmap` calls returns, keeps the invariant and never
changes a record of length `0`. -/
theorem Inv.run (os : Os) {base : List Event} {data L0 dptr this : Nat} (hL0 : 0 < L0)
    (ops : List Op) : ∀ {w : World}, Inv base data L0 dptr this w →
    ∃ w1, run os w this ops = some w1 ∧ Inv base data L0 dptr this w1 ∧
      (handleOf w this = some { length := 0 } → handleOf w1 this = some { length := 0 }) := by
  induction ops with
  | nil =>
    intro w h
    exact ⟨w, rfl, h, fun hz => hz⟩
  | cons op ops ih =>
    intro w h
    obtain ⟨w1, h1, hinv1, hz1⟩ := Inv.step os hL0 h op
    obtain ⟨w2, h2, hinv2, hz2⟩ := ih hinv1
    refine ⟨w2, ?_, hinv2, fun hz => hz2 (hz1 hz)⟩
    simp [Mmap.run, h1, h2]

/-- What the invariant says about the record and the calls made since `base`. -/
theorem Inv.length_zero_iff {base : List Event} {data L0 dptr this : Nat} {w : World}
    (hL0 : 0 < L0) (h : Inv base data L0 dptr this w) :
    ∃ (buffer : BufferObj) (d : hint_wrap), Bound w this buffer dptr d ∧
      (d.length = 0 ↔ Event.munmap data L0 0 ∈ w.events.drop base.length) := by
  obtain ⟨buffer, d, suffix, hb, -, hev, hcase⟩ := h
  refine ⟨buffer, d, hb, ?_⟩
  rw [hev, List.drop_left]
  rcases hcase with ⟨hlen, hnot⟩ | ⟨hlen, hmem⟩
  · constructor
    · intro hz; omega
    · intro hm; exact absurd hm hnot
  · exact ⟨fun _ => hmem, fun _ => hlen⟩

/-- C9: for a mapping of non-zero length created by a successful `Map`, after every
sequence of `Sync` and `Unmap` calls on its buffer: the calls all return; the record's
length is `0` exactly when a `munmap` of the mapping has returned `0` since the mapping was
created; once the length is `0` every further sequence of calls leaves it at `0`; and a
call of `Sync` returns with the heap of records unchanged. -/
theorem length_zero_iff_released (os : Os) (w w1 : World) (args : List Int) (b : Nat)
    (hmap : Map os w args = (w1, Except.ok (JsValue.object b)))
    (hpos : 0 < toSizeT (arg args 0)) (ops : List Op) :
    ∃ (buffer : BufferObj) (w2 : World) (d : hint_wrap),
      w1.objects[b]? = some (some buffer) ∧
      run os w1 b ops = some w2 ∧
      handleOf w2 b = some d ∧
      (d.length = 0 ↔
        Event.munmap buffer.data (toSizeT (arg args 0)) 0 ∈ w2.events.drop w1.events.length) ∧
      (d.length = 0 → ∀ more : List Op,
        ∃ w3, run os w2 b more = some w3 ∧ handleOf w3 b = some { length := 0 }) ∧
      (∀ sargs : List Int, ∃ w3 r, Sync os w2 b sargs = some (w3, r) ∧
        w3.heap = w2.heap ∧ handleOf w3 b = some d) := by
  obtain ⟨buffer, hv, hb, -, -, -, -⟩ := Map_ok_inv hmap
  have hbeq : b = w.objects.length := by
    simpa using hv
  subst hbeq
  have hinv1 : Inv w1.events buffer.data (toSizeT (arg args 0)) w.heap.length
      w.objects.length w1 :=
    ⟨buffer, _, [], hb, rfl, by simp, Or.inl ⟨rfl, by simp⟩⟩
  obtain ⟨w2, hrun, hinv2, -⟩ := Inv.run os hpos ops hinv1
  obtain ⟨buffer2, d, hb2, hiff⟩ := Inv.length_zero_iff hpos hinv2
  refine ⟨buffer, w2, d, hb.obj, hrun, hb2.handleOf, hiff, ?_, ?_⟩
  · intro hz more
    obtain ⟨w3, hrun3, -, hkeep⟩ := Inv.run os hpos more hinv2
    refine ⟨w3, hrun3, hkeep ?_⟩
    rw [hb2.handleOf]
    cases d
    simp only at hz
    rw [hz]
  · intro sargs
    rw [Sync_of_obj os hb2.obj]
    split
    · exact ⟨_, _, rfl, rfl, hb2.handleOf⟩
    · exact ⟨_, _, rfl, rfl, (hb2.log _).handleOf⟩

theorem length_zero_iff_released_witness :
    ∃ w2 : World,
      run osOk mappedWorld 0 [Op.sync [0, 16], Op.unmap, Op.sync [], Op.unmap] = some w2 ∧
      handleOf w2 0 = some { length := 0 } ∧
      Event.munmap 4096 4096 0 ∈ w2.events.drop mappedWorld.events.length ∧
      (∀ more : List Op,
        ∃ w3, run osOk w2 0 more = some w3 ∧ handleOf w3 0 = some { length := 0 }) ∧
      (∀ sargs : List Int, ∃ w3 r, Sync osOk w2 0 sargs = some (w3, r) ∧
        w3.heap = w2.heap ∧ handleOf w3 0 = some { length := 0 }) := by
  obtain ⟨buffer, w2, d, hobj, hrun, hh, hiff, hkeep, hsync⟩ :=
    length_zero_iff_released osOk World.empty mappedWorld [4096, 3, 2, -1, 0] 0 rfl
      (by decide) [Op.sync [0, 16], Op.unmap, Op.sync [], Op.unmap]
  have hbuf : buffer = mappedBuffer := by
    have h : mappedWorld.objects[0]? = some (some mappedBuffer) := rfl
    rw [h] at hobj
    simpa using hobj.symm
  subst hbuf
  have hmem : Event.munmap 4096 4096 0 ∈ w2.events.drop mappedWorld.events.length := by
    have h : ∃ w, run osOk mappedWorld 0 [Op.sync [0, 16], Op.unmap, Op.sync [], Op.unmap] =
        some w ∧ Event.munmap 4096 4096 0 ∈ w.events.drop mappedWorld.events.length :=
      ⟨_, rfl, by decide⟩
    obtain ⟨w, hw, hm⟩ := h
    rw [hw] at hrun
    cases hrun
    exact hm
  have hd : d.length = 0 := hiff.2 hmem
  have hd0 : d = { length := 0 } := by
    cases d
    simp only at hd
    rw [hd]
  subst hd0
  exact ⟨w2, hrun, hh, hmem, hkeep rfl, hsync⟩

end Mmap
